import Mathlib

/-!
Verification of `solana-txn-balance-change-parser` (`src/parser.js`)

Shallow embedding of the transfer-extraction pipeline of `parser.js`.
JavaScript values are modelled as follows:

* an optional string field (which may be `undefined` in JS) is `Option String`;
  the empty string is a possible value of a *present* field;
* JS truthiness of such a field is `jsTruthyS` (`undefined` and `""` are falsy);
* `a || b` on such fields is `jsOrS`;
* a JS object used as a string-keyed map is a function `String → Option _`;
  a property access `obj[k]` where `k` may be `undefined` coerces the key to
  the literal string `"undefined"` (JS property-name coercion), see `kbGet`;
* numbers that the code only ever treats as integers (`decimals`, `lamports`)
  are `Nat`; the final `uiAmount` (a JS float) is modelled as an exact `ℚ`,
  eliding IEEE-754 rounding;
* the single RPC response of `getMultipleAccountsInfo` is a function
  `rpc : String → Option AccountInfo` consulted once per requested address.
-/

/-- JS truthiness for an optional string: `undefined` and `""` are falsy. -/
def jsTruthyS : Option String → Bool
  | some s => !(s == "")
  | none => false

/-- JS `a || b` on optional strings: `a` when truthy, else `b`. -/
def jsOrS (a b : Option String) : Option String :=
  if jsTruthyS a then a else b

/-- JS property-name coercion: accessing `obj[k]` with `k === undefined`
reads the property named `"undefined"`. -/
def keyOf (k? : Option String) : String :=
  k?.getD "undefined"

/-- Everything known about one balance container (`{ mint, decimals, owner }`
records of `parser.js`). -/
structure ContainerKnowledge where
  owner : Option String := none
  mint : Option String := none
  decimals : Option Nat := none
  deriving DecidableEq

/-- The knowledge base: a JS object keyed by container address. -/
abbrev KB := String → Option ContainerKnowledge

/-- Write one entry of the knowledge base (`map[k] = v`). -/
def kbUpdate (kb : KB) (k : String) (v : ContainerKnowledge) : KB :=
  fun a => if a = k then some v else kb a

/-- `tokenAccountData[addr]` where `addr` may be `undefined`. -/
def kbGet (kb : KB) (k? : Option String) : Option ContainerKnowledge :=
  kb (keyOf k?)

/-- `nested tokenAmount` payload: `{ amount, decimals }`. -/
structure TokenAmount where
  amount : Option String := none
  decimals : Option Nat := none
  deriving DecidableEq

/-- The duck-typed `info` payload of a parsed instruction; every field the
code ever reads, each possibly absent. -/
structure ParsedInfo where
  source : Option String := none
  destination : Option String := none
  authority : Option String := none
  mint : Option String := none
  amount : Option String := none
  tokenAmount : Option TokenAmount := none
  lamports : Option Nat := none
  account : Option String := none
  newAccount : Option String := none
  owner : Option String := none
  wallet : Option String := none
  deriving DecidableEq

/-- The `parsed` member of an instruction: `{ type, info }`. -/
structure Parsed where
  type : Option String := none
  info : Option ParsedInfo := none
  deriving DecidableEq

/-- One instruction record (top-level or inner). -/
structure Instruction where
  parsed : Option Parsed := none
  deriving DecidableEq

/-- One group of inner instructions. -/
structure InnerGroup where
  instructions : List Instruction := []
  deriving DecidableEq

/-- An entry of `message.accountKeys`: either a plain string or a
`{ pubkey }` object. -/
inductive AccountKey where
  | str (s : String)
  | obj (pubkey : Option String)
  deriving DecidableEq

/-- `typeof acctObj === "string" ? acctObj : acctObj?.pubkey`. -/
def resolveKey : AccountKey → Option String
  | .str s => some s
  | .obj p => p

/-- `uiTokenAmount` of a token-balance snapshot entry. -/
structure UiTokenAmount where
  decimals : Option Nat := none
  deriving DecidableEq

/-- One entry of `meta.preTokenBalances` / `meta.postTokenBalances`. -/
structure TokenBalance where
  accountIndex : Option Nat := none
  mint : Option String := none
  owner : Option String := none
  uiTokenAmount : Option UiTokenAmount := none
  deriving DecidableEq

/-- `transaction.message`. -/
structure Message where
  accountKeys : List AccountKey := []
  instructions : List Instruction := []
  deriving DecidableEq

/-- `parsedTx.meta`. -/
structure TxMeta where
  innerInstructions : List InnerGroup := []
  preTokenBalances : List TokenBalance := []
  postTokenBalances : List TokenBalance := []
  deriving DecidableEq

/-- A parsed transaction.  The JS code bails out when `parsedTx` or
`parsedTx.meta` is missing; both cases are collapsed into the `none` of the
`Option ParsedTx` input of `parseTransfersFromSignature`. -/
structure ParsedTx where
  message : Message
  meta : TxMeta
  deriving DecidableEq

/-- One raw transfer event as pushed by `parseInstructionTransfers`:
`{ from, to, mint, amount, decimals, rawFrom, rawTo }`. -/
structure Transfer where
  «from» : Option String
  «to» : Option String
  mint : String
  amount : String
  decimals : Nat
  rawFrom : Option String
  rawTo : Option String
  deriving DecidableEq

/-- `parseInstructionTransfers(ix, includeSolTransfers)` (parser.js:66-122):
decodes one instruction into zero, one or two raw transfer events, in push
order (token event, SOL transfer, createAccount funding). -/
def parseInstructionTransfers (ix : Instruction) (includeSolTransfers : Bool) : List Transfer :=
  match ix.parsed with
  | none => []
  | some p =>
    match p.info with
    | none => []
    | some info =>
      if jsTruthyS p.type = false then []
      else
        let type := p.type.getD ""
        let tokenEvents : List Transfer :=
          if type = "transfer" ∨ type = "transferChecked" ∨ type = "transferCheckedWithFee" then
            [{ «from» := jsOrS info.source info.authority,
               «to» := info.destination,
               mint := (jsOrS info.mint (some "UNKNOWN_MINT")).getD "",
               amount := (jsOrS (jsOrS info.amount (info.tokenAmount.bind TokenAmount.amount))
                           (some "0")).getD "0",
               decimals := (info.tokenAmount.bind TokenAmount.decimals).getD 0,
               rawFrom := jsOrS info.source info.authority,
               rawTo := info.destination }]
          else []
        let solEvents : List Transfer :=
          if includeSolTransfers = true ∧ type = "transfer" ∧ info.lamports.getD 0 ≠ 0 then
            [{ «from» := info.source,
               «to» := info.destination,
               mint := "SOL",
               amount := toString (info.lamports.getD 0),
               decimals := 9,
               rawFrom := info.source,
               rawTo := info.destination }]
          else []
        let createEvents : List Transfer :=
          if includeSolTransfers = true ∧ type = "createAccount" ∧ info.lamports.getD 0 ≠ 0 then
            [{ «from» := info.source,
               «to» := info.newAccount,
               mint := "SOL",
               amount := toString (info.lamports.getD 0),
               decimals := 9,
               rawFrom := info.source,
               rawTo := info.newAccount }]
          else []
        tokenEvents ++ solEvents ++ createEvents

/-- `type.startsWith(pre)`, as a structurally recursive (hence
kernel-computable) character-list prefix test. -/
def jsStartsWith (s pre : String) : Bool :=
  pre.data.isPrefixOf s.data

/-- `handleIx` inside `buildTokenAccountMapFromInstructions` (parser.js:11-26):
records `container → owner` from initialization or creation instructions. -/
def handleIx (m : String → Option String) (ix : Instruction) : String → Option String :=
  match ix.parsed with
  | none => m
  | some p =>
    match p.info with
    | none => m
    | some info =>
      if jsTruthyS p.type = false then m
      else
        let type := p.type.getD ""
        if jsStartsWith type "initializeAccount"
            ∧ jsTruthyS info.account = true ∧ jsTruthyS info.owner = true then
          fun a => if a = info.account.getD "" then info.owner else m a
        else if jsStartsWith type "create"
            ∧ (jsTruthyS info.account = true ∨ jsTruthyS info.newAccount = true)
            ∧ (jsTruthyS info.owner = true ∨ jsTruthyS info.wallet = true) then
          fun a => if a = (jsOrS info.account info.newAccount).getD ""
                   then jsOrS info.owner info.wallet else m a
        else m

/-- All instructions in traversal order: top-level, then every inner group
in order (the order used by every pass of `parser.js`). -/
def allInstructions (tx : ParsedTx) : List Instruction :=
  tx.message.instructions ++ (tx.meta.innerInstructions.map InnerGroup.instructions).flatten

/-- `buildTokenAccountMapFromInstructions` (parser.js:9-38): the static-hint
owner map; last writer wins. -/
def buildTokenAccountMapFromInstructions (tx : ParsedTx) : String → Option String :=
  (allInstructions tx).foldl handleIx (fun _ => none)

/-- One step of `gather` inside `buildTokenAccountMapFromBalances`
(parser.js:45-58): merge non-null mint/owner/decimals of one balance
snapshot entry into the map. -/
def gatherBalance (keys : List AccountKey) (kb : KB) (b : TokenBalance) : KB :=
  match b.accountIndex with
  | none => kb
  | some i =>
    match (keys[i]?).bind resolveKey with
    | none => kb
    | some acct =>
      if acct = "" then kb
      else
        let cur := (kb acct).getD {}
        let cur := if jsTruthyS b.mint then { cur with mint := b.mint } else cur
        let cur := if jsTruthyS b.owner then { cur with owner := b.owner } else cur
        let cur := match b.uiTokenAmount.bind UiTokenAmount.decimals with
                   | some d => { cur with decimals := some d }
                   | none => cur
        kbUpdate kb acct cur

/-- `buildTokenAccountMapFromBalances` (parser.js:41-63): pre-balances
first, then post-balances (field-by-field last write wins). -/
def buildTokenAccountMapFromBalances (tx : ParsedTx) : KB :=
  (tx.meta.preTokenBalances ++ tx.meta.postTokenBalances).foldl
    (gatherBalance tx.message.accountKeys) (fun _ => none)

/-- The unification of the two maps (parser.js:199-206): start from a copy of
the balance map, then overwrite the `owner` field for every container in the
instruction hint map. -/
def unifyMaps (balMap : KB) (ixMap : String → Option String) : KB :=
  fun acct =>
    match ixMap acct with
    | some o => some { ((balMap acct).getD {}) with owner := some o }
    | none => balMap acct

/-- The pre-network knowledge base `tokenAccountData` right after
unification. -/
def preNetworkKB (tx : ParsedTx) : KB :=
  unifyMaps (buildTokenAccountMapFromBalances tx) (buildTokenAccountMapFromInstructions tx)

/-- `"TokenkegQfeZyiNwAJbNbGKPFXCWuBvf9Ss623VQ5DA"` (parser.js:3-5). -/
def TOKEN_PROGRAM_ID : String := "TokenkegQfeZyiNwAJbNbGKPFXCWuBvf9Ss623VQ5DA"

/-- `MIN_TOKEN_ACCOUNT_DATA_LEN = 64` (parser.js:6). -/
def MIN_TOKEN_ACCOUNT_DATA_LEN : Nat := 64

/-- One account returned by `getMultipleAccountsInfo`: the owning program
(as its base58 identity) and the raw data bytes. -/
structure AccountInfo where
  owner : String
  data : List Nat
  deriving DecidableEq

/-- One record of the `onChainCache`: `{ owner, mint }`, both `null` for the
"not a resolvable container" marker. -/
structure OnChainEntry where
  owner : Option String := none
  mint : Option String := none
  deriving DecidableEq

/-- `new PublicKey(bytes).toBase58()`: an injective rendering of a 32-byte
slice as an address string (base58 itself is elided; only injectivity and
the byte slices matter to the code). -/
def pubkeyOfBytes (bs : List Nat) : String :=
  String.intercalate "-" (bs.map toString)

/-- The per-account body of `fetchMultipleTokenAccountInfos`
(parser.js:141-166): not found / wrong owning program / short data give the
explicit `{ owner: null, mint: null }` marker; otherwise bytes [0,32) are
the mint and bytes [32,64) the owner. -/
def resolveAccount (info? : Option AccountInfo) : OnChainEntry :=
  match info? with
  | none => {}
  | some info =>
    if info.owner ≠ TOKEN_PROGRAM_ID then {}
    else if info.data.length < MIN_TOKEN_ACCOUNT_DATA_LEN then {}
    else { owner := some (pubkeyOfBytes ((info.data.drop 32).take 32)),
           mint := some (pubkeyOfBytes (info.data.take 32)) }

/-- `fetchMultipleTokenAccountInfos(conn, tokenAccounts, onChainCache)`
(parser.js:129-167): one batched lookup; the response for address `a` is
`rpc a`, and the cache records `resolveAccount` of it per requested address.
This def models the lookup per the batched-lookup collaborator contract
(every requested address is answered or reported not found); the
`new PublicKey(a)` marshalling at parser.js:135, which throws on a
JS-`undefined` or non-base58-32-byte address and aborts the whole run, is
modelled separately by `validPubkey` and
`parseTransfersFromSignatureChecked`. -/
def fetchMultipleTokenAccountInfos (rpc : String → Option AccountInfo)
    (tokenAccounts : List (Option String)) : String → Option OnChainEntry :=
  tokenAccounts.foldl
    (fun cache addr? =>
      fun a => if a = keyOf addr? then some (resolveAccount (addr?.bind rpc)) else cache a)
    (fun _ => none)

/-- The fetch condition (parser.js:217-218): no entry, or no truthy owner,
or mint strictly equal to the `"UNKNOWN_MINT"` sentinel. -/
def needsFetch (kb : KB) (addr? : Option String) : Bool :=
  match kbGet kb addr? with
  | none => true
  | some e => !(jsTruthyS e.owner) || decide (e.mint = some "UNKNOWN_MINT")

/-- `addressesToFetch.add(addr)` guarded by the fetch condition
(parser.js:215-220); a JS `Set` keeps insertion order and deduplicates. -/
def addAddr (kb : KB) (acc : List (Option String)) (a : Option String) : List (Option String) :=
  if needsFetch kb a = true ∧ a ∉ acc then acc ++ [a] else acc

/-- The full `addressesToFetch` set (parser.js:212-222), in insertion order:
for every transfer, `rawFrom` then `rawTo`. -/
def addrsToFetch (kb : KB) (ts : List Transfer) : List (Option String) :=
  ts.foldl (fun acc t => addAddr kb (addAddr kb acc t.rawFrom) t.rawTo) []

/-- One iteration of the on-chain merge loop (parser.js:234-246): ensure an
entry exists, then copy only truthy owner/mint from the cache. -/
def mergeOnChainStep (cache : String → Option OnChainEntry) (kb : KB)
    (addr? : Option String) : KB :=
  let k := keyOf addr?
  let cur := (kb k).getD {}
  let cur :=
    match cache k with
    | some c =>
      let cur := if jsTruthyS c.owner then { cur with owner := c.owner } else cur
      if jsTruthyS c.mint then { cur with mint := c.mint } else cur
    | none => cur
  kbUpdate kb k cur

/-- The whole on-chain merge loop (parser.js:234-246). -/
def mergeOnChain (kb : KB) (fetched : List (Option String))
    (cache : String → Option OnChainEntry) : KB :=
  fetched.foldl (mergeOnChainStep cache) kb

/-- `if (fData && fData.owner) t.from = fData.owner` (parser.js:250-252). -/
def rewriteFrom (kb : KB) (t : Transfer) : Transfer :=
  match kbGet kb t.rawFrom with
  | some d => if jsTruthyS d.owner then { t with «from» := d.owner } else t
  | none => t

/-- `if (toData && toData.owner) t.to = toData.owner` (parser.js:251-253). -/
def rewriteTo (kb : KB) (t : Transfer) : Transfer :=
  match kbGet kb t.rawTo with
  | some d => if jsTruthyS d.owner then { t with «to» := d.owner } else t
  | none => t

/-- One iteration of the owner-rewrite loop (parser.js:249-254).  The two
assignments touch only `from`/`to` while both lookups key on the unchanged
`rawFrom`/`rawTo`, so sequential composition is exact. -/
def rewriteOwners (kb : KB) (t : Transfer) : Transfer :=
  rewriteTo kb (rewriteFrom kb t)

/-- The mint backfill (parser.js:262-274): on the `"UNKNOWN_MINT"` sentinel
take the source container's truthy mint first, else the destination's, and
let the chosen container's decimals (when present) replace the event's. -/
def mintBackfill (fData toData : ContainerKnowledge) (t : Transfer) : Transfer :=
  if t.mint = "UNKNOWN_MINT" then
    if jsTruthyS fData.mint then
      { t with mint := fData.mint.getD "", decimals := fData.decimals.getD t.decimals }
    else if jsTruthyS toData.mint then
      { t with mint := toData.mint.getD "", decimals := toData.decimals.getD t.decimals }
    else t
  else t

/-- The decimals backfill (parser.js:277-283): a zero decimals value is
replaced by the first strictly positive decimals among source then
destination. -/
def decimalsBackfill (fData toData : ContainerKnowledge) (t : Transfer) : Transfer :=
  if t.decimals = 0 then
    if 0 < fData.decimals.getD 0 then { t with decimals := fData.decimals.getD 0 }
    else if 0 < toData.decimals.getD 0 then { t with decimals := toData.decimals.getD 0 }
    else t
  else t

/-- One iteration of the fix-up loop (parser.js:257-284): `fData`/`toData`
are read once, then the mint backfill runs before the decimals backfill
(which therefore sees the possibly updated `t.decimals`). -/
def backfill (kb : KB) (t : Transfer) : Transfer :=
  let fData := (kbGet kb t.rawFrom).getD {}
  let toData := (kbGet kb t.rawTo).getD {}
  decimalsBackfill fData toData (mintBackfill fData toData t)

/-- Digit run of a character list: value of the longest digit prefix. -/
def digitsToNat (ds : List Char) : Nat :=
  ds.foldl (fun n c => 10 * n + (c.toNat - 48)) 0

/-- The whitespace skipped by `parseFloat`. -/
def jsWhitespace (c : Char) : Bool :=
  c = ' ' || c = '\t' || c = '\n' || c = '\r' || c = '\x0b' || c = '\x0c'

/-- `parseFloat(s)` (parser.js:290), as an exact rational: optional sign,
a digit run and/or a fraction, and an optional well-formed exponent, read
as the longest valid prefix; `none` models `NaN` (no digit consumed).
IEEE-754 rounding and the `Infinity` literals are outside this exact
model. -/
def jsParseFloat (s : String) : Option ℚ :=
  let cs := s.data.dropWhile jsWhitespace
  let sign : ℤ := match cs with | '-' :: _ => -1 | _ => 1
  let cs := match cs with | '-' :: rest => rest | '+' :: rest => rest | _ => cs
  let intDigits := cs.takeWhile Char.isDigit
  let cs1 := cs.dropWhile Char.isDigit
  let fracDigits := match cs1 with | '.' :: rest => rest.takeWhile Char.isDigit | _ => []
  let cs2 := match cs1 with | '.' :: rest => rest.dropWhile Char.isDigit | _ => cs1
  if intDigits.isEmpty ∧ fracDigits.isEmpty then none
  else
    let mantissa : ℚ :=
      (sign : ℚ) * ((digitsToNat intDigits : ℚ) +
        (digitsToNat fracDigits : ℚ) / (10 : ℚ) ^ fracDigits.length)
    let expVal : ℤ :=
      match cs2 with
      | e :: rest =>
        if e = 'e' ∨ e = 'E' then
          let esign : ℤ := match rest with | '-' :: _ => -1 | _ => 1
          let rest2 := match rest with | '-' :: r => r | '+' :: r => r | _ => rest
          let eDigits := rest2.takeWhile Char.isDigit
          if eDigits.isEmpty then 0 else esign * (digitsToNat eDigits : ℤ)
        else 0
      | [] => 0
    some (mantissa * (10 : ℚ) ^ expVal)

/-- One output record (parser.js:297-306). -/
structure ResolvedTransfer where
  fromTokenAccount : Option String
  toTokenAccount : Option String
  fromUserAccount : Option String
  toUserAccount : Option String
  amount : String
  mint : String
  decimals : Nat
  uiAmount : Option ℚ
  deriving DecidableEq

/-- The final mapping (parser.js:287-307): compute `uiAmount` from the raw
amount and the final decimals (`null` on parse failure) and expose the raw
container addresses together with the resolved endpoints. -/
def finalize (t : Transfer) : ResolvedTransfer :=
  { fromTokenAccount := t.rawFrom,
    toTokenAccount := t.rawTo,
    fromUserAccount := t.«from»,
    toUserAccount := t.«to»,
    amount := t.amount,
    mint := t.mint,
    decimals := t.decimals,
    uiAmount :=
      match jsParseFloat t.amount with
      | some q => some (q / (10 : ℚ) ^ t.decimals)
      | none => none }

/-- All raw transfer events of the transaction, in emission order
(parser.js:184-192). -/
def rawTransfers (tx : ParsedTx) (inc : Bool) : List Transfer :=
  (allInstructions tx).flatMap (fun ix => parseInstructionTransfers ix inc)

/-- `addressesToFetch` for a whole run (parser.js:212-222). -/
def fetchList (tx : ParsedTx) (inc : Bool) : List (Option String) :=
  addrsToFetch (preNetworkKB tx) (rawTransfers tx inc)

/-- The `onChainCache` after the guarded single batch fetch
(parser.js:209, 225-231): untouched (empty) when nothing needs fetching. -/
def onChainCacheOf (tx : ParsedTx) (rpc : String → Option AccountInfo) (inc : Bool) :
    String → Option OnChainEntry :=
  if (fetchList tx inc).isEmpty then (fun _ => none)
  else fetchMultipleTokenAccountInfos rpc (fetchList tx inc)

/-- The batch requests issued by the guarded call site (parser.js:225-231):
nothing when the set is empty, otherwise the one call carrying the whole
set. -/
def lookupCalls (tx : ParsedTx) (inc : Bool) : List (List (Option String)) :=
  if (fetchList tx inc).isEmpty then [] else [fetchList tx inc]

/-- `tokenAccountData` after incorporating the on-chain results
(parser.js:234-246). -/
def finalKB (tx : ParsedTx) (rpc : String → Option AccountInfo) (inc : Bool) : KB :=
  mergeOnChain (preNetworkKB tx) (fetchList tx inc) (onChainCacheOf tx rpc inc)

/-- `parseTransfersFromSignature` (parser.js:169-308), with the transaction
fetch and the RPC transport abstracted into the `parsedTx?` and `rpc`
inputs: decode, resolve, rewrite, backfill, normalize. -/
def parseTransfersFromSignature (parsedTx? : Option ParsedTx)
    (rpc : String → Option AccountInfo) (includeSolTransfers : Bool := true) :
    List ResolvedTransfer :=
  match parsedTx? with
  | none => []
  | some tx =>
    let kb := finalKB tx rpc includeSolTransfers
    (((rawTransfers tx includeSolTransfers).map (rewriteOwners kb)).map (backfill kb)).map finalize

/-- Knowledge-base owner at a (possibly undefined) container address. -/
def kbOwner (kb : KB) (a? : Option String) : Option String :=
  (kbGet kb a?).bind ContainerKnowledge.owner

/-- Knowledge-base mint at a (possibly undefined) container address. -/
def kbMint (kb : KB) (a? : Option String) : Option String :=
  (kbGet kb a?).bind ContainerKnowledge.mint

/-- The mint-backfill rule as the specification words it: on the sentinel,
the source container's known mint is used first, else the destination's;
the chosen container's decimals (when present) replace the event's. -/
def mintBackfillSpec (fData toData : ContainerKnowledge) (t : Transfer) : Transfer :=
  if t.mint ≠ "UNKNOWN_MINT" then t
  else
    match (if jsTruthyS fData.mint then some fData
           else if jsTruthyS toData.mint then some toData
           else none) with
    | none => t
    | some chosen =>
      { t with mint := chosen.mint.getD "",
               decimals := match chosen.decimals with
                           | some d => d
                           | none => t.decimals }

/-- The decimals-backfill rule as the specification words it: decimals that
are exactly 0 are replaced by the first strictly positive decimals value
among source then destination. -/
def decimalsBackfillSpec (fData toData : ContainerKnowledge) (t : Transfer) : Transfer :=
  if t.decimals ≠ 0 then t
  else
    match (if 0 < fData.decimals.getD 0 then fData.decimals
           else if 0 < toData.decimals.getD 0 then toData.decimals
           else none) with
    | some d => { t with decimals := d }
    | none => t

/-- An RPC collaborator that finds no account at any address. -/
def rpcNone : String → Option AccountInfo := fun _ => none

/-- Build an instruction with a parsed `{ type, info }` payload. -/
def mkIx (ty : String) (info : ParsedInfo) : Instruction :=
  { parsed := some { type := some ty, info := some info } }

/-- The destination container of `txHinted`: a well-formed base58 address,
so the batched lookup's pubkey marshalling succeeds and the run
completes.  (The source is resolved by the hint and is never fetched.) -/
def addrHintD : String := "SysvarC1ock11111111111111111111111111111111"

/-- `transfer S -> addrHintD` plus an `initializeAccount3` hint
`S -> OwnerA`. -/
def txHinted : ParsedTx :=
  { message := { accountKeys := [],
                 instructions := [mkIx "transfer" { source := some "S", destination := some addrHintD, amount := some "3" },
                                  mkIx "initializeAccount3" { account := some "S", owner := some "OwnerA" }] },
    meta := {} }

/-- The raw event decoded from the transfer instruction of `txHinted`. -/
def tHinted : Transfer :=
  { «from» := some "S", «to» := some addrHintD, mint := "UNKNOWN_MINT", amount := "3",
    decimals := 0, rawFrom := some "S", rawTo := some addrHintD }

/-- Static hint owner `"X"` for `"C1"` conflicting with a balance-snapshot
owner `"Y"` (and snapshot mint `"M"`, decimals 4). -/
def txConflict : ParsedTx :=
  { message := { accountKeys := [AccountKey.str "C1"],
                 instructions := [mkIx "initializeAccount" { account := some "C1", owner := some "X" }] },
    meta := { preTokenBalances := [{ accountIndex := some 0, mint := some "M", owner := some "Y",
                                     uiTokenAmount := some { decimals := some 4 } }] } }

/-- The source container of `txSentinelSnap` (a well-formed base58
address). -/
def addrSnapA : String := "11111111111111111111111111111111"

/-- The destination container of `txSentinelSnap` (a well-formed base58
address). -/
def addrSnapB : String := "So11111111111111111111111111111111111111112"

/-- A balance snapshot that pathologically reports the literal string
`"UNKNOWN_MINT"` as the mint of the source container while the destination
container has the concrete mint `"MintReal"`; one plain transfer between
them.  Both addresses are well-formed, so the run completes with the
batched lookup answering "not found". -/
def txSentinelSnap : ParsedTx :=
  { message := { accountKeys := [AccountKey.str addrSnapA, AccountKey.str addrSnapB],
                 instructions := [mkIx "transfer" { source := some addrSnapA, destination := some addrSnapB, amount := some "zzz" }] },
    meta := { preTokenBalances := [{ accountIndex := some 0, mint := some "UNKNOWN_MINT" },
                                   { accountIndex := some 1, mint := some "MintReal" }] } }

/-- The source container of `txBare` (a well-formed base58 address). -/
def addrBareA : String := "Vote111111111111111111111111111111111111111"

/-- The destination container of `txBare` (a well-formed base58
address). -/
def addrBareB : String := "Stake11111111111111111111111111111111111111"

/-- A plain transfer with no balance data at all and an unparsable amount
string. -/
def txBare : ParsedTx :=
  { message := { accountKeys := [],
                 instructions := [mkIx "transfer" { source := some addrBareA, destination := some addrBareB, amount := some "abc" }] },
    meta := {} }

/-- The raw event decoded from `txBare`. -/
def tBare : Transfer :=
  { «from» := some addrBareA, «to» := some addrBareB, mint := "UNKNOWN_MINT", amount := "abc",
    decimals := 0, rawFrom := some addrBareA, rawTo := some addrBareB }

/-- The single output record of `txBare` (nothing resolves; the amount does
not parse, so `uiAmount` is null while the record is still emitted). -/
def rBare : ResolvedTransfer :=
  { fromTokenAccount := some addrBareA, toTokenAccount := some addrBareB,
    fromUserAccount := some addrBareA, toUserAccount := some addrBareB,
    amount := "abc", mint := "UNKNOWN_MINT", decimals := 0, uiAmount := none }

/-- A `transfer` payload with a present-but-empty `source` and a non-empty
`authority`. -/
def infoEmptySrc : ParsedInfo :=
  { source := some "", authority := some "Auth1",
    destination := some "D1", amount := some "5" }

/-- A `transfer` instruction carrying `infoEmptySrc`. -/
def ixEmptySource : Instruction :=
  mkIx "transfer" infoEmptySrc

/-- A `transferChecked`-style event with concrete mint `"MintA"` and
decimals 6. -/
def tMintA : Transfer :=
  { «from» := some "A", «to» := some "B", mint := "MintA", amount := "1000000",
    decimals := 6, rawFrom := some "A", rawTo := some "B" }

/-- A knowledge base with one fully known container `"A"`. -/
def kbKnownA : KB :=
  fun a => if a = "A" then some { owner := some "OwnerO", mint := some "MintM", decimals := some 6 }
           else none

/-- A valid 64-byte token-container image: bytes [0,32) encode the mint,
bytes [32,64) the owner. -/
def accGood : AccountInfo :=
  { owner := TOKEN_PROGRAM_ID, data := (List.range 64).map (fun i => i + 100) }

/-- An account owned by some other program. -/
def accAlien : AccountInfo :=
  { owner := "SomeOtherProgram1111111111111111111111111111", data := (List.range 64).map (fun i => i + 100) }

/-- An account owned by the token program but with only 10 data bytes. -/
def accShort : AccountInfo :=
  { owner := TOKEN_PROGRAM_ID, data := List.range 10 }

/-- An RPC collaborator with one good, one alien-program and one short
account. -/
def rpcMixed : String → Option AccountInfo :=
  fun a =>
    if a = "G" then some accGood
    else if a = "A" then some accAlien
    else if a = "S" then some accShort
    else none

/-- An on-chain cache that attempted `"A"` and learned nothing. -/
def cacheNullA : String → Option OnChainEntry :=
  fun a => if a = "A" then some { owner := none, mint := none } else none

/-- The base58 alphabet used by the pubkey marshalling. -/
def base58Alphabet : List Char :=
  "123456789ABCDEFGHJKLMNPQRSTUVWXYZabcdefghijkmnopqrstuvwxyz".data

/-- Digit value of a base58 character (0 when the character is not in the
alphabet; only used under an alphabet-membership guard). -/
def base58Val (c : Char) : Nat :=
  (base58Alphabet.findIdx? (fun d => d = c)).getD 0

/-- Success of `new PublicKey(a)` on a string (parser.js:135, delegating to
@solana/web3.js): every character is base58, and the decoded byte string —
leading `'1'`s as zero bytes followed by the big-endian bytes of the
base-58 value of the remainder — is exactly 32 bytes long. -/
def validPubkey (s : String) : Bool :=
  let cs := s.data
  cs.all (fun c => base58Alphabet.contains c) &&
    (let zeros := (cs.takeWhile (fun c => c = '1')).length
     let rest := cs.dropWhile (fun c => c = '1')
     let value := rest.foldl (fun n c => 58 * n + base58Val c) 0
     if rest.isEmpty then zeros == 32
     else decide (zeros ≤ 31) && decide ((256 : Nat) ^ (31 - zeros) ≤ value)
            && decide (value < (256 : Nat) ^ (32 - zeros)))

/-- An address handed to the batched lookup marshals successfully: it is a
defined string and a valid 32-byte base58 pubkey (a JS `undefined` element
also throws inside `new PublicKey`). -/
def marshalsOk (a? : Option String) : Bool :=
  match a? with
  | some a => validPubkey a
  | none => false

/-- `parseTransfersFromSignature` including the pubkey marshalling of the
batched lookup (parser.js:135): if any address in `addressesToFetch` fails
`new PublicKey`, the map at parser.js:135 throws and the whole call rejects
before producing any output (`none`); otherwise the run completes with the
records of `parseTransfersFromSignature`. -/
def parseTransfersFromSignatureChecked (parsedTx? : Option ParsedTx)
    (rpc : String → Option AccountInfo) (includeSolTransfers : Bool := true) :
    Option (List ResolvedTransfer) :=
  match parsedTx? with
  | none => some []
  | some tx =>
    if (fetchList tx includeSolTransfers).all marshalsOk then
      some (parseTransfersFromSignature (some tx) rpc includeSolTransfers)
    else none

lemma jsTruthyS_none : jsTruthyS none = false := rfl

lemma kbOwner_none {kb : KB} {a? : Option String} (h : kbGet kb a? = none) :
    kbOwner kb a? = none := by
  simp [kbOwner, h]

lemma rewriteFrom_eq (kb : KB) (t : Transfer) :
    rewriteFrom kb t =
      { t with «from» := if jsTruthyS (kbOwner kb t.rawFrom) then kbOwner kb t.rawFrom
                         else t.«from» } := by
  unfold rewriteFrom kbOwner
  cases h : kbGet kb t.rawFrom with
  | none => simp [jsTruthyS]
  | some d =>
    simp only [Option.bind_some]
    by_cases ht : jsTruthyS d.owner = true
    · simp [ht]
    · simp [Bool.not_eq_true] at ht
      simp [ht]

lemma rewriteTo_eq (kb : KB) (t : Transfer) :
    rewriteTo kb t =
      { t with «to» := if jsTruthyS (kbOwner kb t.rawTo) then kbOwner kb t.rawTo
                       else t.«to» } := by
  unfold rewriteTo kbOwner
  cases h : kbGet kb t.rawTo with
  | none => simp [jsTruthyS]
  | some d =>
    simp only [Option.bind_some]
    by_cases ht : jsTruthyS d.owner = true
    · simp [ht]
    · simp [Bool.not_eq_true] at ht
      simp [ht]

lemma rewriteOwners_eq (kb : KB) (t : Transfer) :
    rewriteOwners kb t =
      { t with
        «from» := if jsTruthyS (kbOwner kb t.rawFrom) then kbOwner kb t.rawFrom
                  else t.«from»,
        «to» := if jsTruthyS (kbOwner kb t.rawTo) then kbOwner kb t.rawTo
                else t.«to» } := by
  unfold rewriteOwners
  rw [rewriteFrom_eq, rewriteTo_eq]

lemma mintBackfill_frame (fData toData : ContainerKnowledge) (t : Transfer) :
    (mintBackfill fData toData t).«from» = t.«from»
    ∧ (mintBackfill fData toData t).«to» = t.«to»
    ∧ (mintBackfill fData toData t).amount = t.amount
    ∧ (mintBackfill fData toData t).rawFrom = t.rawFrom
    ∧ (mintBackfill fData toData t).rawTo = t.rawTo := by
  unfold mintBackfill
  split <;> [skip; exact ⟨rfl, rfl, rfl, rfl, rfl⟩]
  split <;> [exact ⟨rfl, rfl, rfl, rfl, rfl⟩; skip]
  split <;> exact ⟨rfl, rfl, rfl, rfl, rfl⟩

lemma decimalsBackfill_frame (fData toData : ContainerKnowledge) (t : Transfer) :
    (decimalsBackfill fData toData t).«from» = t.«from»
    ∧ (decimalsBackfill fData toData t).«to» = t.«to»
    ∧ (decimalsBackfill fData toData t).amount = t.amount
    ∧ (decimalsBackfill fData toData t).rawFrom = t.rawFrom
    ∧ (decimalsBackfill fData toData t).rawTo = t.rawTo
    ∧ (decimalsBackfill fData toData t).mint = t.mint := by
  unfold decimalsBackfill
  split <;> [skip; exact ⟨rfl, rfl, rfl, rfl, rfl, rfl⟩]
  split <;> [exact ⟨rfl, rfl, rfl, rfl, rfl, rfl⟩; skip]
  split <;> exact ⟨rfl, rfl, rfl, rfl, rfl, rfl⟩

lemma backfill_frame (kb : KB) (t : Transfer) :
    (backfill kb t).«from» = t.«from»
    ∧ (backfill kb t).«to» = t.«to»
    ∧ (backfill kb t).amount = t.amount
    ∧ (backfill kb t).rawFrom = t.rawFrom
    ∧ (backfill kb t).rawTo = t.rawTo := by
  unfold backfill
  have h1 := decimalsBackfill_frame ((kbGet kb t.rawFrom).getD {}) ((kbGet kb t.rawTo).getD {})
    (mintBackfill ((kbGet kb t.rawFrom).getD {}) ((kbGet kb t.rawTo).getD {}) t)
  have h2 := mintBackfill_frame ((kbGet kb t.rawFrom).getD {}) ((kbGet kb t.rawTo).getD {}) t
  exact ⟨h1.1.trans h2.1, h1.2.1.trans h2.2.1, h1.2.2.1.trans h2.2.2.1,
    h1.2.2.2.1.trans h2.2.2.2.1, h1.2.2.2.2.1.trans h2.2.2.2.2⟩

lemma backfill_mint (kb : KB) (t : Transfer) :
    (backfill kb t).mint =
      (mintBackfill ((kbGet kb t.rawFrom).getD {}) ((kbGet kb t.rawTo).getD {}) t).mint := by
  unfold backfill
  exact (decimalsBackfill_frame _ _ _).2.2.2.2.2

lemma finalize_fields (t : Transfer) :
    (finalize t).fromTokenAccount = t.rawFrom
    ∧ (finalize t).toTokenAccount = t.rawTo
    ∧ (finalize t).fromUserAccount = t.«from»
    ∧ (finalize t).toUserAccount = t.«to»
    ∧ (finalize t).amount = t.amount
    ∧ (finalize t).mint = t.mint
    ∧ (finalize t).decimals = t.decimals :=
  ⟨rfl, rfl, rfl, rfl, rfl, rfl, rfl⟩

lemma finalize_uiAmount (t : Transfer) :
    (finalize t).uiAmount = (jsParseFloat t.amount).map (fun q => q / (10 : ℚ) ^ t.decimals) := by
  unfold finalize
  cases jsParseFloat t.amount <;> rfl

lemma mem_ite_list {α : Type} {c : Prop} [Decidable c] {l₁ l₂ : List α} {t : α}
    (h : t ∈ if c then l₁ else l₂) : (c ∧ t ∈ l₁) ∨ (¬c ∧ t ∈ l₂) := by
  by_cases hc : c
  · exact Or.inl ⟨hc, by rwa [if_pos hc] at h⟩
  · exact Or.inr ⟨hc, by rwa [if_neg hc] at h⟩

lemma decoded_endpoints {ix : Instruction} {inc : Bool} {t : Transfer}
    (h : t ∈ parseInstructionTransfers ix inc) :
    t.«from» = t.rawFrom ∧ t.«to» = t.rawTo := by
  obtain ⟨po⟩ := ix
  match po with
  | none => simp [parseInstructionTransfers] at h
  | some ⟨ty?, none⟩ => simp [parseInstructionTransfers] at h
  | some ⟨ty?, some info⟩ =>
    simp only [parseInstructionTransfers] at h
    by_cases hty : jsTruthyS ty? = false
    · rw [if_pos hty] at h; simp at h
    · rw [if_neg hty] at h
      rcases List.mem_append.1 h with h | h
      · rcases List.mem_append.1 h with h | h <;>
          rcases mem_ite_list h with ⟨_, h⟩ | ⟨_, h⟩ <;>
          simp at h <;> subst h <;> exact ⟨rfl, rfl⟩
      · rcases mem_ite_list h with ⟨_, h⟩ | ⟨_, h⟩ <;>
          simp at h <;> subst h <;> exact ⟨rfl, rfl⟩

lemma rawTransfers_endpoints {tx : ParsedTx} {inc : Bool} {t : Transfer}
    (h : t ∈ rawTransfers tx inc) :
    t.«from» = t.rawFrom ∧ t.«to» = t.rawTo := by
  unfold rawTransfers at h
  rw [List.mem_flatMap] at h
  obtain ⟨ix, _, hm⟩ := h
  exact decoded_endpoints hm

lemma parse_output_get? (tx : ParsedTx) (rpc : String → Option AccountInfo)
    (inc : Bool) (i : Nat) :
    (parseTransfersFromSignature (some tx) rpc inc).get? i =
      ((rawTransfers tx inc).get? i).map
        (fun t => finalize (backfill (finalKB tx rpc inc) (rewriteOwners (finalKB tx rpc inc) t))) := by
  unfold parseTransfersFromSignature
  simp only [List.get?_eq_getElem?, List.getElem?_map]
  cases (rawTransfers tx inc)[i]? <;> rfl

lemma mem_addAddr {kb : KB} {acc : List (Option String)} {a x : Option String} :
    x ∈ addAddr kb acc a ↔ x ∈ acc ∨ (x = a ∧ needsFetch kb a = true) := by
  unfold addAddr
  split
  · next hc =>
    simp only [List.mem_append, List.mem_singleton]
    constructor
    · rintro (h | rfl)
      · exact Or.inl h
      · exact Or.inr ⟨rfl, hc.1⟩
    · rintro (h | ⟨rfl, _⟩)
      · exact Or.inl h
      · exact Or.inr rfl
  · next hc =>
    constructor
    · exact Or.inl
    · rintro (h | ⟨rfl, hn⟩)
      · exact h
      · by_cases hm : x ∈ acc
        · exact hm
        · exact absurd ⟨hn, hm⟩ hc

lemma nodup_addAddr {kb : KB} {acc : List (Option String)} {a : Option String}
    (h : acc.Nodup) : (addAddr kb acc a).Nodup := by
  unfold addAddr
  split
  · next hc =>
    simp only [List.nodup_append, List.nodup_singleton, true_and]
    exact ⟨h, by intro b hb hba; exact hc.2 ((List.mem_singleton.1 hba) ▸ hb)⟩
  · exact h

lemma mem_addrsToFetch_aux (kb : KB) (ts : List Transfer) :
    ∀ (acc : List (Option String)) (x : Option String),
      x ∈ ts.foldl (fun acc t => addAddr kb (addAddr kb acc t.rawFrom) t.rawTo) acc ↔
        x ∈ acc ∨ (needsFetch kb x = true ∧ ∃ t ∈ ts, x = t.rawFrom ∨ x = t.rawTo) := by
  induction ts with
  | nil => simp
  | cons t ts ih =>
    intro acc x
    rw [List.foldl_cons, ih]
    rw [mem_addAddr, mem_addAddr]
    constructor
    · rintro (((h | ⟨rfl, hn⟩) | ⟨rfl, hn⟩) | ⟨hn, t', ht', hor⟩)
      · exact Or.inl h
      · exact Or.inr ⟨hn, t, List.mem_cons_self t ts, Or.inl rfl⟩
      · exact Or.inr ⟨hn, t, List.mem_cons_self t ts, Or.inr rfl⟩
      · exact Or.inr ⟨hn, t', List.mem_cons_of_mem t ht', hor⟩
    · rintro (h | ⟨hn, t', ht', hor⟩)
      · exact Or.inl (Or.inl (Or.inl h))
      · rcases List.mem_cons.1 ht' with rfl | ht'
        · rcases hor with rfl | rfl
          · exact Or.inl (Or.inl (Or.inr ⟨rfl, hn⟩))
          · exact Or.inl (Or.inr ⟨rfl, hn⟩)
        · exact Or.inr ⟨hn, t', ht', hor⟩

lemma mem_addrsToFetch {kb : KB} {ts : List Transfer} {x : Option String} :
    x ∈ addrsToFetch kb ts ↔
      needsFetch kb x = true ∧ ∃ t ∈ ts, x = t.rawFrom ∨ x = t.rawTo := by
  unfold addrsToFetch
  rw [mem_addrsToFetch_aux]
  simp

lemma nodup_addrsToFetch (kb : KB) (ts : List Transfer) : (addrsToFetch kb ts).Nodup := by
  unfold addrsToFetch
  have : ∀ (acc : List (Option String)), acc.Nodup →
      (ts.foldl (fun acc t => addAddr kb (addAddr kb acc t.rawFrom) t.rawTo) acc).Nodup := by
    induction ts with
    | nil => intro acc h; simpa using h
    | cons t ts ih =>
      intro acc h
      rw [List.foldl_cons]
      exact ih _ (nodup_addAddr (nodup_addAddr h))
  exact this [] List.nodup_nil

lemma jsTruthyS_isSome {o : Option String} (h : jsTruthyS o = true) : o.isSome = true := by
  cases o with
  | none => simp [jsTruthyS] at h
  | some s => rfl

lemma mergeStep_owner (cache : String → Option OnChainEntry) (kb : KB)
    (a : Option String) (k : String) :
    (mergeOnChainStep cache kb a k).bind ContainerKnowledge.owner =
      if k = keyOf a then
        (if jsTruthyS ((cache k).bind OnChainEntry.owner) then (cache k).bind OnChainEntry.owner
         else (kb k).bind ContainerKnowledge.owner)
      else (kb k).bind ContainerKnowledge.owner := by
  unfold mergeOnChainStep kbUpdate
  by_cases hk : k = keyOf a
  · rw [if_pos hk, if_pos hk, ← hk]
    cases hc : cache k with
    | none =>
      cases hkb : kb k <;> simp [jsTruthyS]
    | some c =>
      by_cases ho : jsTruthyS c.owner = true
      · by_cases hm2 : jsTruthyS c.mint = true <;>
          cases hkb : kb k <;> simp [ho, hm2]
      · rw [Bool.not_eq_true] at ho
        by_cases hm2 : jsTruthyS c.mint = true <;>
          cases hkb : kb k <;> simp [ho, hm2]
  · rw [if_neg hk, if_neg hk]

lemma mergeStep_mint (cache : String → Option OnChainEntry) (kb : KB)
    (a : Option String) (k : String) :
    (mergeOnChainStep cache kb a k).bind ContainerKnowledge.mint =
      if k = keyOf a then
        (if jsTruthyS ((cache k).bind OnChainEntry.mint) then (cache k).bind OnChainEntry.mint
         else (kb k).bind ContainerKnowledge.mint)
      else (kb k).bind ContainerKnowledge.mint := by
  unfold mergeOnChainStep kbUpdate
  by_cases hk : k = keyOf a
  · rw [if_pos hk, if_pos hk, ← hk]
    cases hc : cache k with
    | none =>
      cases hkb : kb k <;> simp [jsTruthyS]
    | some c =>
      by_cases ho : jsTruthyS c.owner = true
      · by_cases hm2 : jsTruthyS c.mint = true <;>
          cases hkb : kb k <;> simp [ho, hm2]
      · rw [Bool.not_eq_true] at ho
        by_cases hm2 : jsTruthyS c.mint = true <;>
          cases hkb : kb k <;> simp [ho, hm2]
  · rw [if_neg hk, if_neg hk]

lemma mergeOnChain_owner_isSome {cache : String → Option OnChainEntry}
    {fetched : List (Option String)} {kb : KB} {k : String}
    (h : ((kb k).bind ContainerKnowledge.owner).isSome = true) :
    ((mergeOnChain kb fetched cache k).bind ContainerKnowledge.owner).isSome = true := by
  induction fetched generalizing kb with
  | nil => exact h
  | cons a rest ih =>
    unfold mergeOnChain at ih ⊢
    rw [List.foldl_cons]
    apply ih
    rw [mergeStep_owner]
    split
    · split
      · next ht => exact jsTruthyS_isSome ht
      · exact h
    · exact h

lemma mergeOnChain_mint_isSome {cache : String → Option OnChainEntry}
    {fetched : List (Option String)} {kb : KB} {k : String}
    (h : ((kb k).bind ContainerKnowledge.mint).isSome = true) :
    ((mergeOnChain kb fetched cache k).bind ContainerKnowledge.mint).isSome = true := by
  induction fetched generalizing kb with
  | nil => exact h
  | cons a rest ih =>
    unfold mergeOnChain at ih ⊢
    rw [List.foldl_cons]
    apply ih
    rw [mergeStep_mint]
    split
    · split
      · next ht => exact jsTruthyS_isSome ht
      · exact h
    · exact h

lemma mergeOnChain_owner_stable {cache : String → Option OnChainEntry}
    {fetched : List (Option String)} {kb : KB} {k : String}
    (h : jsTruthyS ((cache k).bind OnChainEntry.owner) = false) :
    (mergeOnChain kb fetched cache k).bind ContainerKnowledge.owner =
      (kb k).bind ContainerKnowledge.owner := by
  induction fetched generalizing kb with
  | nil => rfl
  | cons a rest ih =>
    unfold mergeOnChain at ih ⊢
    rw [List.foldl_cons, ih, mergeStep_owner]
    split
    · rw [h]; simp
    · rfl

lemma mergeOnChain_mint_stable {cache : String → Option OnChainEntry}
    {fetched : List (Option String)} {kb : KB} {k : String}
    (h : jsTruthyS ((cache k).bind OnChainEntry.mint) = false) :
    (mergeOnChain kb fetched cache k).bind ContainerKnowledge.mint =
      (kb k).bind ContainerKnowledge.mint := by
  induction fetched generalizing kb with
  | nil => rfl
  | cons a rest ih =>
    unfold mergeOnChain at ih ⊢
    rw [List.foldl_cons, ih, mergeStep_mint]
    split
    · rw [h]; simp
    · rfl

lemma fetch_cache_aux (rpc : String → Option AccountInfo) :
    ∀ (l : List (Option String)) (cache : String → Option OnChainEntry) (a : String),
      (∀ x ∈ l, x ≠ none) →
      l.foldl
        (fun cache addr? =>
          fun b => if b = keyOf addr? then some (resolveAccount (addr?.bind rpc)) else cache b)
        cache a =
        if some a ∈ l then some (resolveAccount (rpc a)) else cache a := by
  intro l
  induction l with
  | nil => intro cache a _; simp
  | cons x rest ih =>
    intro cache a hx
    match x, hx x (List.mem_cons_self x rest) with
    | some c, _ =>
      rw [List.foldl_cons, ih _ a (fun y hy => hx y (List.mem_cons_of_mem _ hy))]
      by_cases hr : some a ∈ rest
      · rw [if_pos hr, if_pos (List.mem_cons_of_mem _ hr)]
      · rw [if_neg hr]
        by_cases hac : a = c
        · subst hac
          rw [if_pos (List.mem_cons_self _ _)]
          simp [keyOf]
        · have hnm : some a ∉ (some c :: rest) := by
            intro hmem
            rcases List.mem_cons.1 hmem with heq | hmem2
            · exact hac (Option.some.inj heq)
            · exact hr hmem2
          rw [if_neg hnm]
          simp [keyOf, hac]
    | none, hn => exact absurd rfl hn

lemma fetch_cache_lookup (rpc : String → Option AccountInfo) (l : List (Option String))
    (a : String) (hno : ∀ x ∈ l, x ≠ none) (ha : some a ∈ l) :
    fetchMultipleTokenAccountInfos rpc l a = some (resolveAccount (rpc a)) := by
  unfold fetchMultipleTokenAccountInfos
  rw [fetch_cache_aux rpc l _ a hno, if_pos ha]

lemma mintBackfill_eq_spec (fData toData : ContainerKnowledge) (t : Transfer) :
    mintBackfill fData toData t = mintBackfillSpec fData toData t := by
  unfold mintBackfill mintBackfillSpec
  by_cases hm : t.mint = "UNKNOWN_MINT"
  · rw [if_pos hm, if_neg (not_not_intro hm)]
    by_cases hf : jsTruthyS fData.mint = true
    · rw [if_pos hf, if_pos hf]
      cases hfd : fData.decimals <;> simp [hfd]
    · rw [if_neg hf, if_neg hf]
      by_cases hg : jsTruthyS toData.mint = true
      · rw [if_pos hg, if_pos hg]
        cases hgd : toData.decimals <;> simp [hgd]
      · rw [if_neg hg, if_neg hg]
  · rw [if_neg hm, if_pos hm]

lemma decimalsBackfill_eq_spec (fData toData : ContainerKnowledge) (t : Transfer) :
    decimalsBackfill fData toData t = decimalsBackfillSpec fData toData t := by
  unfold decimalsBackfill decimalsBackfillSpec
  by_cases hd : t.decimals = 0
  · rw [if_pos hd, if_neg (not_not_intro hd)]
    by_cases hf : 0 < fData.decimals.getD 0
    · rw [if_pos hf, if_pos hf]
      cases hfd : fData.decimals with
      | none => rw [hfd] at hf; simp at hf
      | some d => simp
    · rw [if_neg hf, if_neg hf]
      by_cases hg : 0 < toData.decimals.getD 0
      · rw [if_pos hg, if_pos hg]
        cases hgd : toData.decimals with
        | none => rw [hgd] at hg; simp at hg
        | some d => simp
      · rw [if_neg hg, if_neg hg]
  · rw [if_neg hd, if_pos hd]

/-- Claim C2 (confirmed): backfill is exactly the spec's two rules in
sequence — mint backfill (source's known mint first, else destination's,
with the chosen container's decimals when present) followed by decimals
backfill (zero decimals replaced by the first strictly positive decimals
among source then destination, examined on the possibly-updated value) —
and an event whose mint is concrete and whose decimals are nonzero is
never modified by backfill. -/
theorem backfill_matches_spec (kb : KB) (t : Transfer) :
    backfill kb t =
      decimalsBackfillSpec ((kbGet kb t.rawFrom).getD {}) ((kbGet kb t.rawTo).getD {})
        (mintBackfillSpec ((kbGet kb t.rawFrom).getD {}) ((kbGet kb t.rawTo).getD {}) t)
    ∧ (t.mint ≠ "UNKNOWN_MINT" → t.decimals ≠ 0 → backfill kb t = t) := by
  constructor
  · simp only [backfill]
    rw [mintBackfill_eq_spec, decimalsBackfill_eq_spec]
  · intro hm hd
    simp only [backfill]
    have h1 : mintBackfill ((kbGet kb t.rawFrom).getD {}) ((kbGet kb t.rawTo).getD {}) t = t := by
      unfold mintBackfill
      rw [if_neg hm]
    rw [h1]
    unfold decimalsBackfill
    rw [if_neg hd]

/-- Witness for C2 at a concrete input: a `transferChecked`-shaped event
with mint `"MintA"` and decimals 6 is left untouched even over a knowledge
base that knows mint/decimals for both containers. -/
theorem backfill_matches_spec_witness : backfill kbKnownA tMintA = tMintA :=
  (backfill_matches_spec kbKnownA tMintA).2 (by decide) (by decide)

/-- Claim C3 (confirmed): for every container the static-hint map knows, the
pre-network knowledge base's owner is the hint's owner (overwriting whatever
the balance snapshots recorded), while the snapshot-recorded mint and
decimals are untouched. -/
theorem hint_overrides_snapshot (tx : ParsedTx) (c o : String)
    (h : buildTokenAccountMapFromInstructions tx c = some o) :
    kbOwner (preNetworkKB tx) (some c) = some o
    ∧ kbMint (preNetworkKB tx) (some c) = kbMint (buildTokenAccountMapFromBalances tx) (some c)
    ∧ (kbGet (preNetworkKB tx) (some c)).bind ContainerKnowledge.decimals
        = (kbGet (buildTokenAccountMapFromBalances tx) (some c)).bind ContainerKnowledge.decimals := by
  unfold kbOwner kbMint kbGet keyOf preNetworkKB unifyMaps
  simp only [Option.getD_some]
  rw [h]
  cases buildTokenAccountMapFromBalances tx c <;> simp

/-- Witness for C3: in `txConflict` the hint says `C1 -> X` while the
balance snapshot says `C1 -> Y`; the resolved owner is `X` and the snapshot
mint survives. -/
theorem hint_overrides_snapshot_witness :
    kbOwner (preNetworkKB txConflict) (some "C1") = some "X"
    ∧ kbMint (preNetworkKB txConflict) (some "C1")
        = kbMint (buildTokenAccountMapFromBalances txConflict) (some "C1")
    ∧ (kbGet (preNetworkKB txConflict) (some "C1")).bind ContainerKnowledge.decimals
        = (kbGet (buildTokenAccountMapFromBalances txConflict) (some "C1")).bind ContainerKnowledge.decimals :=
  hint_overrides_snapshot txConflict "C1" "X" (by decide)

lemma parseIx_token_head (ix : Instruction) (p : Parsed) (info : ParsedInfo) (inc : Bool)
    (hp : ix.parsed = some p) (hi : p.info = some info)
    (hty : p.type = some "transfer" ∨ p.type = some "transferChecked"
           ∨ p.type = some "transferCheckedWithFee") :
    ∃ rest, parseInstructionTransfers ix inc =
      ({ «from» := jsOrS info.source info.authority,
         «to» := info.destination,
         mint := (jsOrS info.mint (some "UNKNOWN_MINT")).getD "",
         amount := (jsOrS (jsOrS info.amount (info.tokenAmount.bind TokenAmount.amount))
                     (some "0")).getD "0",
         decimals := (info.tokenAmount.bind TokenAmount.decimals).getD 0,
         rawFrom := jsOrS info.source info.authority,
         rawTo := info.destination } : Transfer) :: rest := by
  simp only [parseInstructionTransfers, hp, hi]
  rcases hty with h | h | h <;> rw [h] <;> exact ⟨_, rfl⟩

lemma tokenEvent_fields (info : ParsedInfo) :
    ({ «from» := jsOrS info.source info.authority,
       «to» := info.destination,
       mint := (jsOrS info.mint (some "UNKNOWN_MINT")).getD "",
       amount := (jsOrS (jsOrS info.amount (info.tokenAmount.bind TokenAmount.amount))
                   (some "0")).getD "0",
       decimals := (info.tokenAmount.bind TokenAmount.decimals).getD 0,
       rawFrom := jsOrS info.source info.authority,
       rawTo := info.destination } : Transfer) =
    { «from» := if jsTruthyS info.source then info.source else info.authority,
      «to» := info.destination,
      mint := if jsTruthyS info.mint then info.mint.getD "" else "UNKNOWN_MINT",
      amount := if jsTruthyS info.amount then info.amount.getD "0"
                else if jsTruthyS (info.tokenAmount.bind TokenAmount.amount) then
                  (info.tokenAmount.bind TokenAmount.amount).getD "0"
                else "0",
      decimals := (info.tokenAmount.bind TokenAmount.decimals).getD 0,
      rawFrom := if jsTruthyS info.source then info.source else info.authority,
      rawTo := info.destination } := by
  unfold jsOrS
  by_cases hm : jsTruthyS info.mint = true <;>
    by_cases ha : jsTruthyS info.amount = true <;>
      by_cases hb : jsTruthyS (info.tokenAmount.bind TokenAmount.amount) = true <;>
        simp [hm, ha, hb]

/-- Claim C7 (amended): for every instruction whose parsed type is
`transfer`, `transferChecked` or `transferCheckedWithFee` and which carries
a parsed payload, the decoder emits (first) a token event whose source is
the payload's `source` when that is non-empty, else its `authority`
(JavaScript truthiness, not mere absence); destination `destination`;
amount the first non-empty of `amount` and `tokenAmount.amount`, else
`"0"`; mint the payload's `mint` when non-empty, else `UNKNOWN_MINT`; and
decimals `tokenAmount.decimals`, else 0. -/
theorem token_decoder_spec (ix : Instruction) (p : Parsed) (info : ParsedInfo) (inc : Bool)
    (hp : ix.parsed = some p) (hi : p.info = some info)
    (hty : p.type = some "transfer" ∨ p.type = some "transferChecked"
           ∨ p.type = some "transferCheckedWithFee") :
    ∃ rest, parseInstructionTransfers ix inc =
      ({ «from» := if jsTruthyS info.source then info.source else info.authority,
         «to» := info.destination,
         mint := if jsTruthyS info.mint then info.mint.getD "" else "UNKNOWN_MINT",
         amount := if jsTruthyS info.amount then info.amount.getD "0"
                   else if jsTruthyS (info.tokenAmount.bind TokenAmount.amount) then
                     (info.tokenAmount.bind TokenAmount.amount).getD "0"
                   else "0",
         decimals := (info.tokenAmount.bind TokenAmount.decimals).getD 0,
         rawFrom := if jsTruthyS info.source then info.source else info.authority,
         rawTo := info.destination } : Transfer) :: rest := by
  obtain ⟨rest, hrest⟩ := parseIx_token_head ix p info inc hp hi hty
  exact ⟨rest, by rw [hrest, tokenEvent_fields]⟩

/-- Claim C7 as literally stated is false on the code: with a
present-but-empty `source` (`""`) and authority `"Auth1"`, the emitted
event's source is `"Auth1"`, not the present `source` field. -/
theorem token_decoder_claim_counterexample :
    (parseInstructionTransfers ixEmptySource true).map Transfer.«from» = [some "Auth1"]
    ∧ (ixEmptySource.parsed.bind Parsed.info).bind ParsedInfo.source = some ""
    ∧ some "" ≠ (some "Auth1" : Option String) := by
  refine ⟨by decide, by decide, by decide⟩

/-- Witness for C7 at a concrete instruction (empty `source`, authority
`"Auth1"`). -/
theorem token_decoder_spec_witness :
    ∃ rest, parseInstructionTransfers ixEmptySource true =
      ({ «from» := if jsTruthyS infoEmptySrc.source then infoEmptySrc.source
                   else infoEmptySrc.authority,
         «to» := infoEmptySrc.destination,
         mint := if jsTruthyS infoEmptySrc.mint then infoEmptySrc.mint.getD ""
                 else "UNKNOWN_MINT",
         amount := if jsTruthyS infoEmptySrc.amount then infoEmptySrc.amount.getD "0"
                   else if jsTruthyS (infoEmptySrc.tokenAmount.bind TokenAmount.amount) then
                     (infoEmptySrc.tokenAmount.bind TokenAmount.amount).getD "0"
                   else "0",
         decimals := (infoEmptySrc.tokenAmount.bind TokenAmount.decimals).getD 0,
         rawFrom := if jsTruthyS infoEmptySrc.source then infoEmptySrc.source
                    else infoEmptySrc.authority,
         rawTo := infoEmptySrc.destination } : Transfer) :: rest :=
  token_decoder_spec ixEmptySource { type := some "transfer", info := some infoEmptySrc }
    infoEmptySrc true rfl rfl (Or.inl rfl)

/-- Claim C5 (confirmed): per returned account, a missing account, an
owning program other than the token-program identity, or data shorter than
64 bytes yields the explicit `{ owner := none, mint := none }` marker;
otherwise bytes [0,32) decode to the mint and bytes [32,64) to the owner;
and the batched fetch records exactly this per requested address. -/
theorem resolveAccount_spec (info? : Option AccountInfo) :
    (info? = none → resolveAccount info? = { owner := none, mint := none })
    ∧ (∀ info, info? = some info → info.owner ≠ TOKEN_PROGRAM_ID →
        resolveAccount info? = { owner := none, mint := none })
    ∧ (∀ info, info? = some info → info.data.length < MIN_TOKEN_ACCOUNT_DATA_LEN →
        resolveAccount info? = { owner := none, mint := none })
    ∧ (∀ info, info? = some info → info.owner = TOKEN_PROGRAM_ID →
        MIN_TOKEN_ACCOUNT_DATA_LEN ≤ info.data.length →
        resolveAccount info? =
          { owner := some (pubkeyOfBytes ((info.data.drop 32).take 32)),
            mint := some (pubkeyOfBytes (info.data.take 32)) })
    ∧ (∀ (rpc : String → Option AccountInfo) (l : List (Option String)) (a : String),
        (∀ x ∈ l, x ≠ none) → some a ∈ l →
        fetchMultipleTokenAccountInfos rpc l a = some (resolveAccount (rpc a))) := by
  refine ⟨?_, ?_, ?_, ?_, ?_⟩
  · rintro rfl; rfl
  · rintro info rfl h
    unfold resolveAccount
    dsimp only
    rw [if_pos h]
  · rintro info rfl h
    unfold resolveAccount
    dsimp only
    by_cases ho : info.owner ≠ TOKEN_PROGRAM_ID
    · rw [if_pos ho]
    · rw [if_neg ho, if_pos h]
  · rintro info rfl ho hlen
    unfold resolveAccount
    dsimp only
    rw [if_neg (fun hne => hne ho), if_neg (not_lt.mpr hlen)]
  · exact fun rpc l a h1 h2 => fetch_cache_lookup rpc l a h1 h2

/-- Witness for C5: a 64-byte token-program account decodes to the two
32-byte slices. -/
theorem resolveAccount_spec_witness :
    resolveAccount (some accGood) =
      { owner := some (pubkeyOfBytes ((accGood.data.drop 32).take 32)),
        mint := some (pubkeyOfBytes (accGood.data.take 32)) } :=
  (resolveAccount_spec (some accGood)).2.2.2.1 accGood rfl (by decide) (by decide)

/-- Claim C9 (confirmed): merging the on-chain results into the knowledge
base never unsets a known owner or mint: presence is preserved, and a
non-truthy (null) returned owner or mint leaves the prior value at that
address exactly as it was. -/
theorem merge_preserves_knowledge (kb : KB) (fetched : List (Option String))
    (cache : String → Option OnChainEntry) (k : String) :
    (((kb k).bind ContainerKnowledge.owner).isSome = true →
      ((mergeOnChain kb fetched cache k).bind ContainerKnowledge.owner).isSome = true)
    ∧ (((kb k).bind ContainerKnowledge.mint).isSome = true →
      ((mergeOnChain kb fetched cache k).bind ContainerKnowledge.mint).isSome = true)
    ∧ (jsTruthyS ((cache k).bind OnChainEntry.owner) = false →
      (mergeOnChain kb fetched cache k).bind ContainerKnowledge.owner
        = (kb k).bind ContainerKnowledge.owner)
    ∧ (jsTruthyS ((cache k).bind OnChainEntry.mint) = false →
      (mergeOnChain kb fetched cache k).bind ContainerKnowledge.mint
        = (kb k).bind ContainerKnowledge.mint) :=
  ⟨fun h => mergeOnChain_owner_isSome h, fun h => mergeOnChain_mint_isSome h,
   fun h => mergeOnChain_owner_stable h, fun h => mergeOnChain_mint_stable h⟩

/-- Witness for C9: an attempted address whose lookup learned nothing
keeps its previously known owner. -/
theorem merge_preserves_knowledge_witness :
    (mergeOnChain kbKnownA [some "A"] cacheNullA "A").bind ContainerKnowledge.owner
      = (kbKnownA "A").bind ContainerKnowledge.owner :=
  (merge_preserves_knowledge kbKnownA [some "A"] cacheNullA "A").2.2.1 (by decide)

/-- Claim C4 (confirmed): the fetch set is exactly the deduplicated set of
raw source/destination addresses of raw transfer events whose pre-network
knowledge-base entry is missing, lacks a truthy owner, or has the
`UNKNOWN_MINT` sentinel as mint; the guarded call site issues no batched
lookup when the set is empty and exactly one lookup carrying the whole set
otherwise. -/
theorem fetch_set_spec (tx : ParsedTx) (inc : Bool) :
    (∀ a : Option String, a ∈ fetchList tx inc ↔
      needsFetch (preNetworkKB tx) a = true
      ∧ ∃ t ∈ rawTransfers tx inc, a = t.rawFrom ∨ a = t.rawTo)
    ∧ (fetchList tx inc).Nodup
    ∧ ((fetchList tx inc).isEmpty = true → lookupCalls tx inc = [])
    ∧ ((fetchList tx inc).isEmpty = false →
        lookupCalls tx inc = [fetchList tx inc]) := by
  refine ⟨fun a => mem_addrsToFetch, nodup_addrsToFetch _ _, ?_, ?_⟩
  · intro h
    unfold lookupCalls
    rw [if_pos h]
  · intro h
    unfold lookupCalls
    rw [if_neg (by simp [h])]

/-- Witness for C4: `txHinted` leaves exactly the destination container
unresolved, so the one batched call carries exactly the fetch set. -/
theorem fetch_set_spec_witness :
    lookupCalls txHinted true = [fetchList txHinted true] :=
  (fetch_set_spec txHinted true).2.2.2 (by decide)

lemma mem_of_get? {α : Type} {l : List α} {i : Nat} {a : α} (h : l.get? i = some a) :
    a ∈ l := by
  rw [List.get?_eq_getElem?] at h
  exact List.getElem?_mem h

lemma rewriteOwners_raw (kb : KB) (t : Transfer) :
    (rewriteOwners kb t).rawFrom = t.rawFrom
    ∧ (rewriteOwners kb t).rawTo = t.rawTo
    ∧ (rewriteOwners kb t).mint = t.mint
    ∧ (rewriteOwners kb t).decimals = t.decimals
    ∧ (rewriteOwners kb t).amount = t.amount := by
  rw [rewriteOwners_eq]
  exact ⟨rfl, rfl, rfl, rfl, rfl⟩

lemma getD_mint (kb : KB) (a : Option String) :
    ((kbGet kb a).getD {}).mint = kbMint kb a := by
  unfold kbMint
  cases kbGet kb a <;> rfl

lemma pipeline_raw_preserved (kb : KB) (t : Transfer) :
    (finalize (backfill kb (rewriteOwners kb t))).fromTokenAccount = t.rawFrom
    ∧ (finalize (backfill kb (rewriteOwners kb t))).toTokenAccount = t.rawTo := by
  refine ⟨?_, ?_⟩
  · exact ((finalize_fields _).1).trans
      (((backfill_frame kb _).2.2.2.1).trans (rewriteOwners_raw kb t).1)
  · exact ((finalize_fields _).2.1).trans
      (((backfill_frame kb _).2.2.2.2).trans (rewriteOwners_raw kb t).2.1)

lemma validPubkey_truthy {a : String} (h : validPubkey a = true) :
    jsTruthyS (some a) = true := by
  cases he : a == ""
  · simp [jsTruthyS, he]
  · have ha : a = "" := by simpa using he
    subst ha
    exact absurd h (by decide)

lemma needsFetch_false_owner {kb : KB} {a? : Option String}
    (h : needsFetch kb a? = false) : jsTruthyS (kbOwner kb a?) = true := by
  unfold kbOwner needsFetch at *
  revert h
  cases hk : kbGet kb a? with
  | none => intro h; exact Bool.noConfusion h
  | some e =>
    intro h
    have h' : (!jsTruthyS e.owner || decide (e.mint = some "UNKNOWN_MINT")) = false := h
    show jsTruthyS e.owner = true
    cases ht : jsTruthyS e.owner with
    | true => rfl
    | false => rw [ht] at h'; simp at h'

lemma mergeOnChain_owner_truthy {cache : String → Option OnChainEntry}
    {fetched : List (Option String)} {kb : KB} {k : String}
    (h : jsTruthyS ((kb k).bind ContainerKnowledge.owner) = true) :
    jsTruthyS ((mergeOnChain kb fetched cache k).bind ContainerKnowledge.owner) = true := by
  induction fetched generalizing kb with
  | nil => exact h
  | cons a rest ih =>
    unfold mergeOnChain at ih ⊢
    rw [List.foldl_cons]
    apply ih
    rw [mergeStep_owner]
    split
    · split
      · next ht => exact ht
      · exact h
    · exact h

/-- Claim C1 (confirmed, over runs that complete): on every run on which
the pubkey marshalling of the batched lookup succeeds (the only way the
code produces output at all), every output record's `fromUserAccount` /
`toUserAccount` equals the final knowledge base's owner of the raw
source/destination container when that entry has a truthy owner, and
otherwise the raw container address itself — and both are always truthy,
in particular never the empty string: an endpoint either has a knowledge-base
owner (always truthy when stored), or was fetched, hence is a non-empty
valid pubkey. -/
theorem resolved_endpoints_spec (tx : ParsedTx) (rpc : String → Option AccountInfo)
    (inc : Bool) (out : List ResolvedTransfer)
    (hrun : parseTransfersFromSignatureChecked (some tx) rpc inc = some out)
    (i : Nat) (t : Transfer)
    (ht : (rawTransfers tx inc).get? i = some t) :
    ∃ r, out.get? i = some r
      ∧ r.fromUserAccount =
          (if jsTruthyS (kbOwner (finalKB tx rpc inc) t.rawFrom) then
            kbOwner (finalKB tx rpc inc) t.rawFrom
          else t.rawFrom)
      ∧ r.toUserAccount =
          (if jsTruthyS (kbOwner (finalKB tx rpc inc) t.rawTo) then
            kbOwner (finalKB tx rpc inc) t.rawTo
          else t.rawTo)
      ∧ jsTruthyS r.fromUserAccount = true
      ∧ jsTruthyS r.toUserAccount = true := by
  unfold parseTransfersFromSignatureChecked at hrun
  dsimp only at hrun
  split at hrun
  case isFalse => exact Option.noConfusion hrun
  case isTrue hall =>
  obtain rfl : parseTransfersFromSignature (some tx) rpc inc = out := Option.some.inj hrun
  rw [List.all_eq_true] at hall
  have hmem : t ∈ rawTransfers tx inc := mem_of_get? ht
  obtain ⟨hfe, hte⟩ := rawTransfers_endpoints hmem
  have hout := parse_output_get? tx rpc inc i
  rw [ht] at hout
  have hvalid : ∀ a? : Option String, needsFetch (preNetworkKB tx) a? = true →
      (a? = t.rawFrom ∨ a? = t.rawTo) → jsTruthyS a? = true := by
    intro a? hn hor
    have hin : a? ∈ fetchList tx inc := by
      unfold fetchList
      exact mem_addrsToFetch.2 ⟨hn, t, hmem, hor⟩
    have := hall a? hin
    cases a? with
    | none => exact absurd this (by decide)
    | some a => exact validPubkey_truthy this
  have howner : ∀ a? : Option String, needsFetch (preNetworkKB tx) a? = false →
      jsTruthyS (kbOwner (finalKB tx rpc inc) a?) = true := by
    intro a? hn
    have hpre : jsTruthyS (kbOwner (preNetworkKB tx) a?) = true := needsFetch_false_owner hn
    unfold kbOwner kbGet at hpre ⊢
    unfold finalKB
    exact mergeOnChain_owner_truthy hpre
  refine ⟨finalize (backfill (finalKB tx rpc inc) (rewriteOwners (finalKB tx rpc inc) t)),
    hout, ?_, ?_, ?_, ?_⟩
  · rw [(finalize_fields _).2.2.1, (backfill_frame _ _).1, rewriteOwners_eq]
    dsimp only
    rw [hfe]
  · rw [(finalize_fields _).2.2.2.1, (backfill_frame _ _).2.1, rewriteOwners_eq]
    dsimp only
    rw [hte]
  · rw [(finalize_fields _).2.2.1, (backfill_frame _ _).1, rewriteOwners_eq]
    dsimp only
    split
    · next hc => exact hc
    · next hc =>
      rw [hfe]
      cases hn : needsFetch (preNetworkKB tx) t.rawFrom with
      | true => exact hvalid t.rawFrom hn (Or.inl rfl)
      | false => exact absurd (howner t.rawFrom hn) hc
  · rw [(finalize_fields _).2.2.2.1, (backfill_frame _ _).2.1, rewriteOwners_eq]
    dsimp only
    split
    · next hc => exact hc
    · next hc =>
      rw [hte]
      cases hn : needsFetch (preNetworkKB tx) t.rawTo with
      | true => exact hvalid t.rawTo hn (Or.inr rfl)
      | false => exact absurd (howner t.rawTo hn) hc

/-- Witness for C1 at `txHinted`, a run that completes (the one fetched
address is a valid pubkey): the hinted source resolves to its owner, the
destination falls back to the raw address, and both displayed endpoints
are truthy. -/
theorem resolved_endpoints_spec_witness :
    ∃ r, (parseTransfersFromSignature (some txHinted) rpcNone true).get? 0 = some r
      ∧ r.fromUserAccount =
          (if jsTruthyS (kbOwner (finalKB txHinted rpcNone true) tHinted.rawFrom) then
            kbOwner (finalKB txHinted rpcNone true) tHinted.rawFrom
          else tHinted.rawFrom)
      ∧ r.toUserAccount =
          (if jsTruthyS (kbOwner (finalKB txHinted rpcNone true) tHinted.rawTo) then
            kbOwner (finalKB txHinted rpcNone true) tHinted.rawTo
          else tHinted.rawTo)
      ∧ jsTruthyS r.fromUserAccount = true
      ∧ jsTruthyS r.toUserAccount = true :=
  resolved_endpoints_spec txHinted rpcNone true
    (parseTransfersFromSignature (some txHinted) rpcNone true)
    (by unfold parseTransfersFromSignatureChecked; dsimp only; rw [if_pos (by decide)])
    0 tHinted (by decide)

lemma truthy_getD_eq {o : Option String} {s : String}
    (htr : jsTruthyS o = true) (h : o.getD "" = s) : o = some s := by
  cases o with
  | none => simp [jsTruthyS] at htr
  | some v => exact congrArg some h

/-- Claim C8 (confirmed, over the exact-rational model of `parseFloat`):
every output record's `uiAmount` is the parsed raw amount divided by ten to
the power of the final decimals, it is null exactly when the raw amount
string does not parse as a numeral, and in every case the record is emitted
with its raw amount and decimals unchanged from the (backfilled) event. -/
theorem uiAmount_spec (tx : ParsedTx) (rpc : String → Option AccountInfo) (inc : Bool)
    (r : ResolvedTransfer) (hr : r ∈ parseTransfersFromSignature (some tx) rpc inc) :
    r.uiAmount = (jsParseFloat r.amount).map (fun q => q / (10 : ℚ) ^ r.decimals)
    ∧ (r.uiAmount = none ↔ jsParseFloat r.amount = none)
    ∧ ∃ t, r = finalize t ∧ r.amount = t.amount ∧ r.decimals = t.decimals := by
  unfold parseTransfersFromSignature at hr
  rw [List.mem_map] at hr
  obtain ⟨t', _, rfl⟩ := hr
  refine ⟨?_, ?_, t', rfl, (finalize_fields t').2.2.2.2.1, (finalize_fields t').2.2.2.2.2.2⟩
  · rw [finalize_uiAmount, (finalize_fields t').2.2.2.2.1, (finalize_fields t').2.2.2.2.2.2]
  · rw [finalize_uiAmount, (finalize_fields t').2.2.2.2.1]
    exact Option.map_eq_none'

/-- Witness for C8: the unparsable amount `"abc"` gives a null `uiAmount`
while the record is emitted with amount and decimals intact. -/
theorem uiAmount_spec_witness :
    rBare.uiAmount = (jsParseFloat rBare.amount).map (fun q => q / (10 : ℚ) ^ rBare.decimals)
    ∧ (rBare.uiAmount = none ↔ jsParseFloat rBare.amount = none)
    ∧ ∃ t, rBare = finalize t ∧ rBare.amount = t.amount ∧ rBare.decimals = t.decimals :=
  uiAmount_spec txBare rpcNone true rBare (by decide)

/-- Claim C6 (amended): provided neither endpoint's knowledge-base entry
records the literal sentinel string as its mint (which only a pathological
balance snapshot can produce, see the counterexample), an output record's
mint equals `UNKNOWN_MINT` only when the decoder's sentinel propagated
unchanged and no data source supplied a (truthy) mint for either endpoint
container. -/
theorem mint_sentinel_spec (tx : ParsedTx) (rpc : String → Option AccountInfo) (inc : Bool)
    (i : Nat) (t : Transfer) (r : ResolvedTransfer)
    (ht : (rawTransfers tx inc).get? i = some t)
    (hr : (parseTransfersFromSignature (some tx) rpc inc).get? i = some r)
    (hf : kbMint (finalKB tx rpc inc) t.rawFrom ≠ some "UNKNOWN_MINT")
    (hto : kbMint (finalKB tx rpc inc) t.rawTo ≠ some "UNKNOWN_MINT")
    (hm : r.mint = "UNKNOWN_MINT") :
    t.mint = "UNKNOWN_MINT"
    ∧ jsTruthyS (kbMint (finalKB tx rpc inc) t.rawFrom) = false
    ∧ jsTruthyS (kbMint (finalKB tx rpc inc) t.rawTo) = false := by
  have hout := parse_output_get? tx rpc inc i
  rw [ht] at hout
  rw [hout] at hr
  have hreq : r = finalize (backfill (finalKB tx rpc inc) (rewriteOwners (finalKB tx rpc inc) t)) :=
    (Option.some.inj hr).symm
  set kb := finalKB tx rpc inc with hkb
  have hraw1 : (rewriteOwners kb t).rawFrom = t.rawFrom := (rewriteOwners_raw kb t).1
  have hraw2 : (rewriteOwners kb t).rawTo = t.rawTo := (rewriteOwners_raw kb t).2.1
  have hmint1 : (rewriteOwners kb t).mint = t.mint := (rewriteOwners_raw kb t).2.2.1
  have hrm : r.mint =
      (mintBackfill ((kbGet kb t.rawFrom).getD {}) ((kbGet kb t.rawTo).getD {})
        (rewriteOwners kb t)).mint := by
    rw [hreq, (finalize_fields _).2.2.2.2.2.1, backfill_mint, hraw1, hraw2]
  have hfm : ((kbGet kb t.rawFrom).getD {}).mint = kbMint kb t.rawFrom := getD_mint kb t.rawFrom
  have htm : ((kbGet kb t.rawTo).getD {}).mint = kbMint kb t.rawTo := getD_mint kb t.rawTo
  by_cases h0 : t.mint = "UNKNOWN_MINT"
  · have hu1 : (rewriteOwners kb t).mint = "UNKNOWN_MINT" := hmint1.trans h0
    have hf2 : jsTruthyS ((kbGet kb t.rawFrom).getD {}).mint = false := by
      by_contra hftr
      rw [Bool.not_eq_false] at hftr
      have hmint_eq : (mintBackfill ((kbGet kb t.rawFrom).getD {}) ((kbGet kb t.rawTo).getD {})
          (rewriteOwners kb t)).mint = ((kbGet kb t.rawFrom).getD {}).mint.getD "" := by
        unfold mintBackfill
        rw [if_pos hu1, if_pos hftr]
      have : ((kbGet kb t.rawFrom).getD {}).mint = some "UNKNOWN_MINT" :=
        truthy_getD_eq hftr (hmint_eq ▸ hrm ▸ hm)
      rw [hfm] at this
      exact hf this
    have ht2 : jsTruthyS ((kbGet kb t.rawTo).getD {}).mint = false := by
      by_contra httr
      rw [Bool.not_eq_false] at httr
      have hmint_eq : (mintBackfill ((kbGet kb t.rawFrom).getD {}) ((kbGet kb t.rawTo).getD {})
          (rewriteOwners kb t)).mint = ((kbGet kb t.rawTo).getD {}).mint.getD "" := by
        unfold mintBackfill
        rw [if_pos hu1, if_neg (by rw [hf2]; exact Bool.false_ne_true), if_pos httr]
      have : ((kbGet kb t.rawTo).getD {}).mint = some "UNKNOWN_MINT" :=
        truthy_getD_eq httr (hmint_eq ▸ hrm ▸ hm)
      rw [htm] at this
      exact hto this
    exact ⟨h0, hfm ▸ hf2, htm ▸ ht2⟩
  · exfalso
    have hnb : (mintBackfill ((kbGet kb t.rawFrom).getD {}) ((kbGet kb t.rawTo).getD {})
        (rewriteOwners kb t)).mint = (rewriteOwners kb t).mint := by
      unfold mintBackfill
      rw [if_neg (fun hc => h0 (hmint1 ▸ hc))]
    exact h0 (hmint1 ▸ (hnb ▸ hrm ▸ hm))

/-- Claim C6 as literally stated is false on the code: in `txSentinelSnap`
a balance snapshot supplies the concrete mint `"MintReal"` for the
transfer's destination container, yet the output record's mint is the
`UNKNOWN_MINT` sentinel (the source container's snapshot carried the
literal sentinel string, which the backfill copies as a truthy mint). -/
theorem mint_sentinel_claim_counterexample :
    (parseTransfersFromSignature (some txSentinelSnap) rpcNone true).map
        ResolvedTransfer.mint = ["UNKNOWN_MINT"]
    ∧ kbMint (finalKB txSentinelSnap rpcNone true) (some addrSnapB) = some "MintReal"
    ∧ (rawTransfers txSentinelSnap true).map Transfer.rawTo = [some addrSnapB] := by
  refine ⟨by decide, by decide, by decide⟩

/-- Witness for C6 at `txBare`: no source supplies any mint, and the
sentinel propagates unchanged. -/
theorem mint_sentinel_spec_witness :
    tBare.mint = "UNKNOWN_MINT"
    ∧ jsTruthyS (kbMint (finalKB txBare rpcNone true) tBare.rawFrom) = false
    ∧ jsTruthyS (kbMint (finalKB txBare rpcNone true) tBare.rawTo) = false :=
  mint_sentinel_spec txBare rpcNone true 0 tBare rBare (by decide) (by decide)
    (by decide) (by decide) (by decide)

/-- Claim C10 (confirmed): `fromTokenAccount`/`toTokenAccount` always equal
the decoder's raw container addresses, and owner rewriting and backfill
never alter an event's raw container addresses (rewriting touches only
`from`/`to`, backfill only `mint`/`decimals`). -/
theorem raw_container_frame (kb : KB) (t : Transfer) (tx : ParsedTx)
    (rpc : String → Option AccountInfo) (inc : Bool) (i : Nat) :
    (rewriteOwners kb t).rawFrom = t.rawFrom
    ∧ (rewriteOwners kb t).rawTo = t.rawTo
    ∧ (rewriteOwners kb t).mint = t.mint
    ∧ (rewriteOwners kb t).decimals = t.decimals
    ∧ (rewriteOwners kb t).amount = t.amount
    ∧ (backfill kb t).rawFrom = t.rawFrom
    ∧ (backfill kb t).rawTo = t.rawTo
    ∧ (backfill kb t).«from» = t.«from»
    ∧ (backfill kb t).«to» = t.«to»
    ∧ (backfill kb t).amount = t.amount
    ∧ ((parseTransfersFromSignature (some tx) rpc inc).get? i).map
        ResolvedTransfer.fromTokenAccount = ((rawTransfers tx inc).get? i).map Transfer.rawFrom
    ∧ ((parseTransfersFromSignature (some tx) rpc inc).get? i).map
        ResolvedTransfer.toTokenAccount = ((rawTransfers tx inc).get? i).map Transfer.rawTo := by
  refine ⟨(rewriteOwners_raw kb t).1, (rewriteOwners_raw kb t).2.1,
    (rewriteOwners_raw kb t).2.2.1, (rewriteOwners_raw kb t).2.2.2.1,
    (rewriteOwners_raw kb t).2.2.2.2,
    (backfill_frame kb t).2.2.2.1, (backfill_frame kb t).2.2.2.2,
    (backfill_frame kb t).1, (backfill_frame kb t).2.1, (backfill_frame kb t).2.2.1,
    ?_, ?_⟩
  · rw [parse_output_get?]
    cases hg : (rawTransfers tx inc).get? i with
    | none => rfl
    | some u =>
      simp only [Option.map_some', Option.some.injEq]
      exact (pipeline_raw_preserved _ u).1
  · rw [parse_output_get?]
    cases hg : (rawTransfers tx inc).get? i with
    | none => rfl
    | some u =>
      simp only [Option.map_some', Option.some.injEq]
      exact (pipeline_raw_preserved _ u).2
